import Mathlib

/-!
Shallow embedding of the resilient fetch-and-cache pipeline of
`src/processor.py` (gmail_analyzer), together with theorems settling the
spec claims about error classification, cache persistence, retry
orchestration and query filtering.
-/

namespace GmailAnalyzer

/-- JSON values as produced by `json.loads` over an error payload
(`Processor._extract_error_reason`, processor.py lines 72-81). -/
inductive JsonVal where
  | null
  | jbool (b : Bool)
  | num (n : Int)
  | str (s : String)
  | arr (elems : List JsonVal)
  | obj (fields : List (String × JsonVal))

/-- A Python exception as seen by `Processor._should_retry`: either a
`googleapiclient` `HttpError` carrying an optional numeric
`resp.status` (absent attribute gives `None` via `getattr`) and an
optional decoded JSON `content` payload (`none` models a missing
`content` attribute, undecodable bytes or invalid JSON, each of which
makes `_extract_error_reason` return `None`), or any other exception. -/
inductive PyException where
  | httpError (status : Option Nat) (content : Option JsonVal)
  | other

/-- Python subscripting `v[k]` for a string key: succeeds only on a dict
holding the key (`KeyError`/`TypeError` on anything else map to `none`). -/
def jlookup (v : JsonVal) (k : String) : Option JsonVal :=
  match v with
  | .obj fields => (fields.find? (fun f => f.1 == k)).map (fun f => f.2)
  | _ => none

/-- Python subscripting `v[i]` for an index: succeeds on a list
(`IndexError`/`TypeError` otherwise map to `none`; a JSON string value at
this position also ends in `None` overall, since the subsequent string
subscript raises `TypeError`). -/
def jindex (v : JsonVal) (i : Nat) : Option JsonVal :=
  match v with
  | .arr elems => elems.get? i
  | _ => none

/-- `Processor._extract_error_reason` (processor.py lines 72-81):
`payload["error"]["errors"][0]["reason"]`, with every decoding or lookup
failure collapsed to `None`. -/
def extractErrorReason (content : Option JsonVal) : Option JsonVal :=
  match content with
  | none => none
  | some payload =>
    match jlookup payload "error" with
    | none => none
    | some e =>
      match jlookup e "errors" with
      | none => none
      | some a =>
        match jindex a 0 with
        | none => none
        | some entry => jlookup entry "reason"

/-- Python membership test
`reason in ("rateLimitExceeded", "userRateLimitExceeded")`
(processor.py line 67): true exactly when the extracted reason is one of
the two rate-limit strings (a non-string JSON value never equals a
Python string). -/
def reasonIsRateLimit (r : Option JsonVal) : Bool :=
  match r with
  | some (.str s) => s == "rateLimitExceeded" || s == "userRateLimitExceeded"
  | _ => false

/-- `Processor._should_retry` (processor.py lines 57-70): non-`HttpError`
exceptions are never retried; statuses 429/500/503 are retried; status
403 is retried exactly when the extracted structured reason is
`rateLimitExceeded` or `userRateLimitExceeded`. -/
def shouldRetry (e : PyException) : Bool :=
  match e with
  | .other => false
  | .httpError status content =>
    if status == some 429 || status == some 500 || status == some 503 then
      true
    else if status == some 403 && reasonIsRateLimit (extractErrorReason content) then
      true
    else
      false

/-- The numeric status an exception carries: present only on `HttpError`. -/
def statusOf : PyException → Option Nat
  | .httpError s _ => s
  | .other => none

/-- The structured reason an exception carries, as extracted by
`_extract_error_reason`: present only on `HttpError`. -/
def reasonOf : PyException → Option JsonVal
  | .httpError _ c => extractErrorReason c
  | .other => none

theorem reasonIsRateLimit_iff (r : Option JsonVal) :
    reasonIsRateLimit r = true ↔
      r = some (.str "rateLimitExceeded") ∨ r = some (.str "userRateLimitExceeded") := by
  match r with
  | none => simp [reasonIsRateLimit]
  | some .null => simp [reasonIsRateLimit]
  | some (.jbool b) => simp [reasonIsRateLimit]
  | some (.num n) => simp [reasonIsRateLimit]
  | some (.arr es) => simp [reasonIsRateLimit]
  | some (.obj fs) => simp [reasonIsRateLimit]
  | some (.str s) =>
    simp only [reasonIsRateLimit, Bool.or_eq_true, beq_iff_eq, Option.some.injEq,
      JsonVal.str.injEq]

theorem shouldRetry_httpError (status : Option Nat) (content : Option JsonVal) :
    shouldRetry (.httpError status content) =
      ((status == some 429 || status == some 500 || status == some 503) ||
        (status == some 403 && reasonIsRateLimit (extractErrorReason content))) := by
  simp only [shouldRetry]
  by_cases h1 : (status == some 429 || status == some 500 || status == some 503) = true
  · simp [h1]
  · simp only [Bool.not_eq_true] at h1
    simp only [h1, Bool.false_or, if_false]
    by_cases h2 : (status == some 403 && reasonIsRateLimit (extractErrorReason content)) = true
    · simp [h2]
    · simp only [Bool.not_eq_true] at h2
      simp [h2]

/-- C1: `classify` (`_should_retry`) marks an error retryable iff it
carries a numeric status in {429, 500, 503}, or status 403 together with
a structured reason in {rateLimitExceeded, userRateLimitExceeded};
every other error is permanent. -/
theorem classify_retryable_iff (e : PyException) :
    shouldRetry e = true ↔
      ((statusOf e = some 429 ∨ statusOf e = some 500 ∨ statusOf e = some 503) ∨
        (statusOf e = some 403 ∧
          (reasonOf e = some (.str "rateLimitExceeded") ∨
            reasonOf e = some (.str "userRateLimitExceeded")))) := by
  cases e with
  | other => simp [shouldRetry, statusOf]
  | httpError status content =>
    rw [shouldRetry_httpError]
    simp only [statusOf, reasonOf, Bool.or_eq_true, Bool.and_eq_true, beq_iff_eq,
      reasonIsRateLimit_iff]
    tauto

/-- A message reference as returned by `users.messages.list`
(processor.py lines 108-111): `{id, threadId}`. -/
structure MessageRef where
  id : String
  threadId : String
  deriving DecidableEq, Repr

/-- Contents of one cache file: either a completely written pickle of a
collection, or a file opened for writing whose content is incomplete. -/
inductive FileData where
  | valid (msgs : List MessageRef)
  | truncated
  deriving DecidableEq, Repr

/-- A tiny file-system model: an association list from path to data. -/
abbrev FileSys := List (String × FileData)

/-- Install `d` at `path`, replacing any previous entry. -/
def fsSet (fs : FileSys) (path : String) (d : FileData) : FileSys :=
  (path, d) :: fs.filter (fun f => !(f.1 == path))

/-- Remove the entry at `path`. -/
def fsDel (fs : FileSys) (path : String) : FileSys :=
  fs.filter (fun f => !(f.1 == path))

/-- Look up the data at `path`. -/
def fsGet (fs : FileSys) (path : String) : Option FileData :=
  (fs.find? (fun f => f.1 == path)).map (fun f => f.2)

/-- Does the file at `path` hold a completely written collection? -/
def isValidAt (fs : FileSys) (path : String) : Bool :=
  match fsGet fs path with
  | some (.valid _) => true
  | _ => false

/-- The cache write of `get_messages` and `get_metadata` (processor.py
lines 164-168 and 271-273): `open(cache_file, "wb")` truncates the
target file in place, then `pickle.dump` writes the new collection.
The file-system states at which a crash can leave the disk are: before
the open, after the truncating open, and after the dump completes. -/
def cacheWriteCrashStates (fs : FileSys) (path : String)
    (msgs : List MessageRef) : List FileSys :=
  [fs, fsSet fs path .truncated, fsSet fs path (.valid msgs)]

/-- Modelled from the spec's words for comparison ("temp file + rename"):
write the new collection to a temporary path, then rename it over the
target. Crash states: before anything, after the truncating open of the
temporary file, after the temporary dump, and after the rename (which
installs the complete data at the target and removes the temporary). -/
def atomicWriteCrashStates (fs : FileSys) (path tmp : String)
    (msgs : List MessageRef) : List FileSys :=
  [fs, fsSet fs tmp .truncated, fsSet fs tmp (.valid msgs),
    fsSet (fsDel (fsSet fs tmp (.valid msgs)) tmp) path (.valid msgs)]

theorem fsGet_fsSet (fs : FileSys) (p : String) (d : FileData) :
    fsGet (fsSet fs p d) p = some d := by
  unfold fsGet fsSet
  rw [List.find?_cons_of_pos _ (by simp)]
  rfl

theorem find?_filter_ne (fs : FileSys) (p q : String) (hne : q ≠ p) :
    (fs.filter (fun f => !(f.1 == p))).find? (fun f => f.1 == q) =
      fs.find? (fun f => f.1 == q) := by
  induction fs with
  | nil => rfl
  | cons a l ih =>
    rw [List.filter_cons]
    by_cases ha : a.1 = p
    · have h1 : (!(a.1 == p)) = false := by simp [ha]
      rw [h1, if_neg (by simp)]
      rw [List.find?_cons_of_neg _ (by simp [ha, Ne.symm hne])]
      exact ih
    · have h1 : (!(a.1 == p)) = true := by simp [ha]
      rw [h1, if_pos rfl]
      by_cases hq : a.1 = q
      · rw [List.find?_cons_of_pos _ (by simp [hq]),
          List.find?_cons_of_pos _ (by simp [hq])]
      · rw [List.find?_cons_of_neg _ (by simp [hq]),
          List.find?_cons_of_neg _ (by simp [hq])]
        exact ih

theorem fsGet_fsSet_ne (fs : FileSys) (p q : String) (d : FileData)
    (hne : q ≠ p) : fsGet (fsSet fs p d) q = fsGet fs q := by
  unfold fsGet fsSet
  rw [List.find?_cons_of_neg _ (by simp [Ne.symm hne]), find?_filter_ne fs p q hne]

theorem fsGet_fsDel_ne (fs : FileSys) (p q : String) (hne : q ≠ p) :
    fsGet (fsDel fs p) q = fsGet fs q := by
  unfold fsGet fsDel
  rw [find?_filter_ne fs p q hne]

/-- The spec's atomic discipline really has the claimed property: with a
distinct temporary path, every crash state keeps a valid collection at
the target whenever one was there before the write. -/
theorem atomicWrite_preserves_valid (fs : FileSys) (path tmp : String)
    (msgs : List MessageRef) (hne : path ≠ tmp)
    (hvalid : isValidAt fs path = true) :
    ∀ st ∈ atomicWriteCrashStates fs path tmp msgs, isValidAt st path = true := by
  intro st hst
  simp only [atomicWriteCrashStates, List.mem_cons, List.mem_singleton,
    List.not_mem_nil, or_false] at hst
  rcases hst with rfl | rfl | rfl | rfl
  · exact hvalid
  · rw [isValidAt, fsGet_fsSet_ne _ _ _ _ hne]
    exact hvalid
  · rw [isValidAt, fsGet_fsSet_ne _ _ _ _ hne]
    exact hvalid
  · rw [isValidAt, fsGet_fsSet]

/-- C2 counterexample: the source's cache write is a plain in-place
truncate-and-dump, so with a previously valid `cache/messages.pickle`
there is a crash point (right after the truncating open) at which the
previous valid cache is destroyed: not every crash state keeps a valid
file at the key. -/
theorem cacheWrite_crash_destroys_previous :
    ((cacheWriteCrashStates [("cache/messages.pickle", .valid [⟨"a", "ta"⟩])]
        "cache/messages.pickle" [⟨"b", "tb"⟩]).all
      (fun st => isValidAt st "cache/messages.pickle")) = false := by
  decide

/-- C2 amended: the cache write is performed in place — a truncating
open followed by the dump, with no temporary file or rename — so the
intermediate crash state holds no valid collection at the key (a crash
there destroys the previous cache), and only the final state holds the
newly written collection. -/
theorem cacheWrite_in_place (fs : FileSys) (path : String)
    (msgs : List MessageRef) :
    cacheWriteCrashStates fs path msgs =
      [fs, fsSet fs path .truncated, fsSet fs path (.valid msgs)] ∧
    isValidAt (fsSet fs path .truncated) path = false ∧
    fsGet (fsSet fs path (.valid msgs)) path = some (.valid msgs) := by
  refine ⟨rfl, ?_, fsGet_fsSet _ _ _⟩
  rw [isValidAt, fsGet_fsSet]

/-- Snapshot of one cache file as `get_messages` sees it (processor.py
lines 113-124): whether the file exists, its modification time, and the
result of unpickling it (`none` models a file whose contents
`pickle.load` cannot parse). -/
structure CacheView where
  present : Bool
  mtime : Int
  parse : Option (List MessageRef)

/-- Cache freshness window (processor.py line 18). -/
def cacheTTLseconds : Int := 86400

/-- The cache-consulting fetch of `Processor.get_messages` (processor.py
lines 108-168), with the network interaction abstracted to the
collection `fetched` it would produce: when the cache file exists, is
fresh, and `force_refresh` is not set, the pickled collection is
returned — and a file that fails to unpickle raises, since there is no
try/except around `pickle.load`; the error propagates to the caller.
Otherwise the messages are fetched from the network. -/
def getMessages (cache : CacheView) (forceRefresh : Bool) (now : Int)
    (fetched : List MessageRef) : Except Unit (List MessageRef) :=
  if !forceRefresh && cache.present && decide (now - cache.mtime < cacheTTLseconds) then
    match cache.parse with
    | some msgs => .ok msgs
    | none => .error ()
  else
    .ok fetched

/-- C3 counterexample: a fresh cache file that exists but cannot be
unpickled makes `get_messages` raise to its caller, unlike the genuine
cache-miss path (absent file), which fetches from the network. -/
theorem corrupt_cache_fatal_at_input :
    getMessages ⟨true, 0, none⟩ false 0 [⟨"m1", "t1"⟩] = .error () ∧
    getMessages ⟨false, 0, none⟩ false 0 [⟨"m1", "t1"⟩] = .ok [⟨"m1", "t1"⟩] ∧
    getMessages ⟨true, 0, none⟩ false 0 [⟨"m1", "t1"⟩] ≠
      .ok [⟨"m1", "t1"⟩] := by
  refine ⟨rfl, rfl, fun h => ?_⟩
  exact Except.noConfusion h

/-- C3 amended: an existing, fresh cache file that is unreadable or
unparseable is not treated as a cache miss — the unpickling error
propagates to the caller as fatal and no refetch happens. -/
theorem corrupt_cache_raises (cache : CacheView) (now : Int)
    (fetched : List MessageRef) (hp : cache.present = true)
    (hf : now - cache.mtime < cacheTTLseconds) (hc : cache.parse = none) :
    getMessages cache false now fetched = .error () := by
  simp [getMessages, hp, hf, hc]

/-- Concrete instantiation of `corrupt_cache_raises`. -/
theorem corrupt_cache_raises_witness :
    (true : Bool) = true ∧ ((0 : Int) - 0 < cacheTTLseconds) ∧
    getMessages ⟨true, 0, none⟩ false 0 [] = .error () :=
  ⟨rfl, by decide, corrupt_cache_raises ⟨true, 0, none⟩ 0 [] rfl (by decide) rfl⟩

/-- One metadata record as built by `Processor.process_message`
(processor.py lines 192-198): id, label list, and the extracted From,
Date and Subject header values. -/
structure MsgMetadata where
  id : String
  labels : List String
  hfrom : Option String
  hdate : Option String
  hsubject : Option String
  deriving DecidableEq, Repr

/-- Python `next((h["value"] for h in headers if h["name"] == name), None)`
(processor.py lines 182-190): the value of the first header carrying the
given name. -/
def findHeader (headers : List (String × String)) (name : String) : Option String :=
  (headers.find? (fun h => h.1 == name)).map (fun h => h.2)

/-- One per-item outcome delivered to the batch callback: a successful
payload (top-level id, labelIds, payload headers) or an exception. -/
inductive BatchItemResult where
  | success (id : String) (labelIds : List String) (headers : List (String × String))
  | failure (e : PyException)

/-- The processor's mutable queues (processor.py lines 38-39). -/
structure ProcState where
  messagesQueue : List MsgMetadata
  failedMessagesQueue : List String
  deriving DecidableEq, Repr

/-- `Processor.process_message` (processor.py lines 170-198): on a
per-item exception, a retryable error appends the request id to the
failed queue and a permanent error drops the id (with a warning); on
success the extracted record is appended to the messages queue. -/
def processMessage (st : ProcState) (requestId : String)
    (r : BatchItemResult) : ProcState :=
  match r with
  | .failure e =>
    if shouldRetry e then
      { st with failedMessagesQueue := st.failedMessagesQueue ++ [requestId] }
    else
      st
  | .success i labelIds headers =>
    { st with
      messagesQueue := st.messagesQueue ++
        [⟨i, labelIds, findHeader headers "From", findHeader headers "Date",
          findHeader headers "Subject"⟩] }

/-- C6 counterexample: delivering two successful responses that share
id "a" to `process_message` leaves two records with id "a" in the
result collection — the later arrival is appended as a duplicate, not
an overwrite. -/
theorem duplicate_id_appended :
    ((processMessage
        (processMessage ⟨[], []⟩ "a" (.success "a" [] []))
        "a" (.success "a" [] [])).messagesQueue.map
      (fun m => m.id)) = ["a", "a"] ∧
    ¬ ((processMessage
        (processMessage ⟨[], []⟩ "a" (.success "a" [] []))
        "a" (.success "a" [] [])).messagesQueue.map
      (fun m => m.id)).Nodup := by
  refine ⟨rfl, ?_⟩
  decide

/-- C6 amended: `process_message` performs no deduplication — a
successful response is always appended at the end of the result
collection, even when a record with the same id is already present, so
the collection may contain several records sharing an id. -/
theorem processMessage_appends_duplicate (st : ProcState) (i : String)
    (labelIds : List String) (headers : List (String × String)) :
    (processMessage st i (.success i labelIds headers)).messagesQueue =
      st.messagesQueue ++
        [⟨i, labelIds, findHeader headers "From", findHeader headers "Date",
          findHeader headers "Subject"⟩] := rfl

/-- `Processor.filter_messages_queue` (processor.py lines 348-356):
`None` leaves the queue untouched; an empty id set empties it; otherwise
only records whose id lies in the set are kept. -/
def filterMessagesQueue (messageIds : Option (List String))
    (queue : List MsgMetadata) : List MsgMetadata :=
  match messageIds with
  | none => queue
  | some ids =>
    if ids.isEmpty then []
    else queue.filter (fun m => m.id ∈ ids)

/-- C9: filtering with an id set keeps exactly the records whose id is
in the set (and preserves their original order as a sublist); an empty
id set yields the empty collection; an absent id set leaves the
collection unchanged. -/
theorem filterMessagesQueue_spec (queue : List MsgMetadata) :
    filterMessagesQueue none queue = queue ∧
    filterMessagesQueue (some []) queue = [] ∧
    (∀ ids m, m ∈ filterMessagesQueue (some ids) queue ↔
      (m ∈ queue ∧ m.id ∈ ids)) ∧
    (∀ ids, List.Sublist (filterMessagesQueue (some ids) queue) queue) := by
  refine ⟨rfl, rfl, ?_, ?_⟩
  · intro ids m
    by_cases hids : ids.isEmpty
    · rw [List.isEmpty_iff] at hids
      subst hids
      simp [filterMessagesQueue]
    · simp only [filterMessagesQueue, if_neg hids]
      simp [List.mem_filter]
  · intro ids
    by_cases hids : ids.isEmpty
    · simp [filterMessagesQueue, hids]
    · simp only [filterMessagesQueue, if_neg hids]
      exact List.filter_sublist queue

/-- The retry-round budget configured in `Processor.__init__`
(processor.py lines 32-37): `None` selects the default of 5 rounds, a
value `<= 0` selects unlimited rounds (`None` internally), and a
positive value is kept as is. -/
def initMaxRetryRounds (arg : Option Int) : Option Nat :=
  match arg with
  | none => some 5
  | some v => if v ≤ 0 then none else some v.toNat

/-- What one retry round does to the snapshotted failed ids, abstracting
the network (processor.py lines 363-397): either the round completes all
its batches, leaving a new failed queue accumulated by the callbacks, or
a batch raises a permanent (non-retryable) error mid-round, aborting the
whole retry procedure with whatever the failed queue held at that point. -/
inductive RoundOutcome where
  | completed (newFailed : List String)
  | aborted (left : List String)

/-- How `_retry_failed_messages` stopped. -/
inductive StopReason where
  | emptySet
  | budget
  | stagnation
  | batchAbort
  deriving DecidableEq, Repr

/-- Result of the round loop: the number of fully executed rounds, the
failed ids left behind, and why the loop stopped. -/
structure RetryResult where
  rounds : Nat
  failed : List String
  reason : StopReason
  deriving DecidableEq, Repr

/-- The `while` guard of the round loop (processor.py lines 360-362):
budget remains when rounds are unlimited or the count is still below the
configured maximum. -/
def budgetLeft (maxRounds : Option Nat) (round : Nat) : Bool :=
  match maxRounds with
  | none => true
  | some n => round < n

/-- `Processor._retry_failed_messages` (processor.py lines 358-409),
with each round's network effect given by `oracle`: while the failed
queue is non-empty and budget remains, snapshot and clear the queue and
run the round's batches (a permanent batch-level error returns at once);
after a completed round, return early when the new failed queue is
non-empty and at least as large as the snapshot (stagnation). -/
def retryLoop (maxRounds : Option Nat)
    (oracle : Nat → List String → RoundOutcome)
    (round : Nat) (failed : List String) : RetryResult :=
  if h1 : failed.isEmpty then ⟨round, failed, .emptySet⟩
  else if h2 : !budgetLeft maxRounds round then ⟨round, failed, .budget⟩
  else
    match oracle round failed with
    | .aborted left => ⟨round, left, .batchAbort⟩
    | .completed newFailed =>
      if h3 : !newFailed.isEmpty && decide (failed.length ≤ newFailed.length) then
        ⟨round + 1, newFailed, .stagnation⟩
      else
        retryLoop maxRounds oracle (round + 1) newFailed
termination_by failed.length
decreasing_by
  have hl : 0 < failed.length := by
    cases failed with
    | nil => simp at h1
    | cons a l => simp
  by_cases he : newFailed.isEmpty
  · have hz : newFailed.length = 0 := by
      cases newFailed with
      | nil => rfl
      | cons a l => simp at he
    omega
  · simp only [Bool.not_eq_true] at he
    have hlt : ¬ (failed.length ≤ newFailed.length) := by
      intro hle
      exact h3 (by simp [he, hle])
    omega

/-- Entry point of the round loop: `_retry_failed_messages` starts at
round 0 on the current failed queue. -/
def retryFailedMessages (maxRounds : Option Nat)
    (oracle : Nat → List String → RoundOutcome)
    (failed : List String) : RetryResult :=
  retryLoop maxRounds oracle 0 failed

theorem retryLoop_abort (maxRounds : Option Nat)
    (oracle : Nat → List String → RoundOutcome) (round : Nat)
    (failed left : List String) (hne : ¬ failed.isEmpty = true)
    (hbudget : budgetLeft maxRounds round = true)
    (horacle : oracle round failed = .aborted left) :
    retryLoop maxRounds oracle round failed = ⟨round, left, .batchAbort⟩ := by
  rw [retryLoop, dif_neg hne, dif_neg (by simp [hbudget]), horacle]

/-- C4: when a round runs (non-empty queue, budget left) and completes
with a new failed queue that is non-empty and at least as large as its
snapshot, the loop returns right after that round — whatever budget
remains — and the stagnant ids are exactly the unresolved ids left
behind in the result. -/
theorem stagnation_stops_immediately (maxRounds : Option Nat)
    (oracle : Nat → List String → RoundOutcome) (round : Nat)
    (failed newFailed : List String) (hne : ¬ failed.isEmpty = true)
    (hbudget : budgetLeft maxRounds round = true)
    (horacle : oracle round failed = .completed newFailed)
    (hne2 : ¬ newFailed.isEmpty = true)
    (hstag : failed.length ≤ newFailed.length) :
    retryLoop maxRounds oracle round failed =
      ⟨round + 1, newFailed, .stagnation⟩ := by
  rw [retryLoop, dif_neg hne, dif_neg (by simp [hbudget]), horacle]
  have hne2' : newFailed.isEmpty = false := by simpa using hne2
  simp [hne2', hstag]

/-- Concrete instantiation of `stagnation_stops_immediately`: one
stagnant round under a budget of 10 rounds. -/
theorem stagnation_stops_immediately_witness :
    ¬ (["a"] : List String).isEmpty = true ∧
    budgetLeft (some 10) 0 = true ∧
    (["a"] : List String).length ≤ (["a"] : List String).length ∧
    retryLoop (some 10) (fun _ l => .completed l) 0 ["a"] =
      ⟨1, ["a"], .stagnation⟩ :=
  ⟨by decide, rfl, le_refl _,
    stagnation_stops_immediately (some 10) (fun _ l => .completed l) 0
      ["a"] ["a"] (by decide) rfl rfl (by decide) (le_refl _)⟩

theorem retryLoop_rounds_le (N : Nat)
    (oracle : Nat → List String → RoundOutcome) :
    ∀ (n : Nat) (failed : List String), failed.length ≤ n →
      ∀ round, (retryLoop (some N) oracle round failed).rounds ≤ max round N := by
  intro n
  induction n with
  | zero =>
    intro failed hlen round
    have : failed = [] := List.length_eq_zero.mp (Nat.le_zero.mp hlen)
    subst this
    rw [retryLoop, dif_pos (show ([] : List String).isEmpty = true from rfl)]
    exact le_max_left _ _
  | succ n ih =>
    intro failed hlen round
    rw [retryLoop]
    split
    · exact le_max_left _ _
    · rename_i hne
      split
      · exact le_max_left _ _
      · rename_i hb
        have hround : round < N := by
          simp only [Bool.not_eq_true, Bool.not_eq_false] at hb
          simpa [budgetLeft] using hb
        split
        · exact le_max_left _ _
        · rename_i newFailed horacle
          split
          · exact le_trans hround (le_max_right _ _)
          · rename_i h3
            have hfpos : 0 < failed.length := by
              rcases failed with _ | ⟨a, l⟩
              · simp at hne
              · simp
            have hlt : newFailed.length < failed.length := by
              by_cases he : newFailed.isEmpty = true
              · have hz : newFailed.length = 0 := by
                  rcases newFailed with _ | ⟨a, l⟩
                  · rfl
                  · simp at he
                omega
              · have he' : newFailed.isEmpty = false := by simpa using he
                have hgt : ¬ failed.length ≤ newFailed.length := by
                  intro hle
                  exact h3 (by simp [he', hle])
                omega
            have hrec := ih newFailed (by omega) (round + 1)
            rw [Nat.max_eq_right hround] at hrec
            exact le_trans hrec (le_max_right _ _)

theorem continue_length_lt (failed newFailed : List String)
    (hne : ¬ failed.isEmpty = true)
    (h3 : ¬ (!newFailed.isEmpty && decide (failed.length ≤ newFailed.length)) = true) :
    newFailed.length < failed.length := by
  have hfpos : 0 < failed.length := by
    rcases failed with _ | ⟨a, l⟩
    · simp at hne
    · simp
  by_cases he : newFailed.isEmpty = true
  · have hz : newFailed.length = 0 := by
      rcases newFailed with _ | ⟨a, l⟩
      · rfl
      · simp at he
    omega
  · have he' : newFailed.isEmpty = false := by simpa using he
    have hgt : ¬ failed.length ≤ newFailed.length := by
      intro hle
      exact h3 (by simp [he', hle])
    omega

theorem retryLoop_none_reason (oracle : Nat → List String → RoundOutcome) :
    ∀ (n : Nat) (failed : List String), failed.length ≤ n → ∀ round,
      (retryLoop none oracle round failed).reason = .emptySet ∨
      (retryLoop none oracle round failed).reason = .stagnation ∨
      (retryLoop none oracle round failed).reason = .batchAbort := by
  intro n
  induction n with
  | zero =>
    intro failed hlen round
    have : failed = [] := List.length_eq_zero.mp (Nat.le_zero.mp hlen)
    subst this
    rw [retryLoop, dif_pos (show ([] : List String).isEmpty = true from rfl)]
    exact Or.inl rfl
  | succ n ih =>
    intro failed hlen round
    rw [retryLoop]
    split
    · exact Or.inl rfl
    · rename_i hne
      split
      · rename_i hb
        exact absurd hb (by simp [budgetLeft])
      · split
        · exact Or.inr (Or.inr rfl)
        · rename_i newFailed horacle
          split
          · exact Or.inr (Or.inl rfl)
          · rename_i h3
            have hlt := continue_length_lt failed newFailed hne h3
            exact ih newFailed (by omega) (round + 1)

/-- C5 counterexample: with `max_retry_rounds = 0` (unlimited rounds), a
permanent batch-level error makes the round loop return with a non-empty
failed queue, neither via an empty failed set nor via stagnation — so
"the loop terminates only when the failed-id set becomes empty or
stagnation is detected" fails as stated. -/
theorem unlimited_loop_stops_on_batch_abort :
    retryFailedMessages (initMaxRetryRounds (some 0))
        (fun _ _ => .aborted ["a"]) ["a", "b"] =
      ⟨0, ["a"], .batchAbort⟩ ∧
    (retryFailedMessages (initMaxRetryRounds (some 0))
        (fun _ _ => .aborted ["a"]) ["a", "b"]).reason ≠ .emptySet ∧
    (retryFailedMessages (initMaxRetryRounds (some 0))
        (fun _ _ => .aborted ["a"]) ["a", "b"]).reason ≠ .stagnation ∧
    (retryFailedMessages (initMaxRetryRounds (some 0))
        (fun _ _ => .aborted ["a"]) ["a", "b"]).failed ≠ [] := by
  have hkey : initMaxRetryRounds (some 0) = none := rfl
  have habort : retryFailedMessages (initMaxRetryRounds (some 0))
      (fun _ _ => .aborted ["a"]) ["a", "b"] = ⟨0, ["a"], .batchAbort⟩ := by
    rw [retryFailedMessages, hkey]
    exact retryLoop_abort none (fun _ _ => .aborted ["a"]) 0 ["a", "b"] ["a"]
      (by decide) rfl rfl
  refine ⟨habort, ?_, ?_, ?_⟩ <;> rw [habort] <;> decide

/-- C5 amended: with `maxRetryRounds = N > 0` the round loop executes at
most N rounds; with `maxRetryRounds = 0` rounds are unlimited and the
loop returns only when the failed set empties, stagnation is detected,
or a permanent batch-level error aborts the retry procedure. -/
theorem retry_round_budget (N : Int)
    (oracle : Nat → List String → RoundOutcome) (failed : List String)
    (hN : 0 < N) :
    (retryFailedMessages (initMaxRetryRounds (some N)) oracle failed).rounds ≤
      N.toNat ∧
    ((retryFailedMessages (initMaxRetryRounds (some 0)) oracle failed).reason =
        .emptySet ∨
      (retryFailedMessages (initMaxRetryRounds (some 0)) oracle failed).reason =
        .stagnation ∨
      (retryFailedMessages (initMaxRetryRounds (some 0)) oracle failed).reason =
        .batchAbort) := by
  constructor
  · have hkey : initMaxRetryRounds (some N) = some N.toNat := by
      simp only [initMaxRetryRounds]
      rw [if_neg (not_le.mpr hN)]
    rw [retryFailedMessages, hkey]
    have h := retryLoop_rounds_le N.toNat oracle failed.length failed (le_refl _) 0
    simpa using h
  · have hkey : initMaxRetryRounds (some 0) = none := rfl
    rw [retryFailedMessages, hkey]
    exact retryLoop_none_reason oracle failed.length failed (le_refl _) 0

/-- Concrete instantiation of `retry_round_budget` at N = 3. -/
theorem retry_round_budget_witness :
    (0 : Int) < 3 ∧
    ((retryFailedMessages (initMaxRetryRounds (some 3))
        (fun _ _ => .completed []) ["a"]).rounds ≤ (3 : Int).toNat ∧
      ((retryFailedMessages (initMaxRetryRounds (some 0))
          (fun _ _ => .completed []) ["a"]).reason = .emptySet ∨
        (retryFailedMessages (initMaxRetryRounds (some 0))
          (fun _ _ => .completed []) ["a"]).reason = .stagnation ∨
        (retryFailedMessages (initMaxRetryRounds (some 0))
          (fun _ _ => .completed []) ["a"]).reason = .batchAbort)) :=
  ⟨by decide, retry_round_budget 3 (fun _ _ => .completed []) ["a"] (by decide)⟩

/-- `_MAX_RETRIES` (processor.py line 19). -/
def maxRetries : Nat := 5

/-- `Processor._execute_with_backoff` (processor.py lines 88-106), with
the wrapped request abstracted to `call`, giving the outcome of each
attempt, and started at a given attempt counter: an attempt returning a
value ends the loop; an exception that is not retryable, or arriving
once `attempt >= _MAX_RETRIES`, is re-raised unchanged (non-`HttpError`
exceptions propagate uncaught, and `shouldRetry` is false on them, so
both raise paths coincide); otherwise the loop sleeps (recorded in the
trace as the attempt index whose delay formula is used) and tries again
with the counter incremented. Returns the final outcome together with
the list of attempt indices slept on. -/
def executeWithBackoffFrom {α : Type} (call : Nat → Except PyException α)
    (attempt : Nat) : Except PyException α × List Nat :=
  match call attempt with
  | .ok v => (.ok v, [])
  | .error e =>
    if h : !shouldRetry e || decide (maxRetries ≤ attempt) then
      (.error e, [])
    else
      let rest := executeWithBackoffFrom call (attempt + 1)
      (rest.1, attempt :: rest.2)
termination_by maxRetries - attempt
decreasing_by
  have : ¬ maxRetries ≤ attempt := by
    intro hle
    exact h (by simp [hle])
  omega

/-- Each distinct wrapped call starts with a fresh attempt counter of 0
(processor.py line 89). -/
def executeWithBackoff {α : Type} (call : Nat → Except PyException α) :
    Except PyException α × List Nat :=
  executeWithBackoffFrom call 0

theorem executeWithBackoffFrom_stop {α : Type}
    (call : Nat → Except PyException α) (attempt : Nat) (e : PyException)
    (hcall : call attempt = .error e)
    (hstop : shouldRetry e = false ∨ maxRetries ≤ attempt) :
    executeWithBackoffFrom call attempt = (.error e, []) := by
  rw [executeWithBackoffFrom, hcall]
  rcases hstop with h | h
  · exact dif_pos (by simp [h])
  · exact dif_pos (by simp [h])

theorem executeWithBackoffFrom_step {α : Type}
    (call : Nat → Except PyException α) (attempt : Nat) (e : PyException)
    (hlt : attempt < maxRetries) (hcall : call attempt = .error e)
    (hretry : shouldRetry e = true) :
    executeWithBackoffFrom call attempt =
      ((executeWithBackoffFrom call (attempt + 1)).1,
        attempt :: (executeWithBackoffFrom call (attempt + 1)).2) := by
  rw [executeWithBackoffFrom, hcall]
  exact dif_neg (by simp [hretry, Nat.not_le.mpr hlt])

/-- C7: under the per-call policy (`maxAttempts = _MAX_RETRIES = 5`),
a non-retryable first error is re-raised at once with no sleep and no
further attempt; a retryable error while the counter is below the cap
sleeps once and continues with the next attempt; and when every attempt
up to the cap keeps failing retryably, the cap-exceeding attempt's error
is re-raised unchanged after exactly 5 backoff sleeps (indices 0-4).
Each distinct call starts from a fresh counter (`executeWithBackoff`
always begins at attempt 0). -/
theorem per_call_retry_policy {α : Type}
    (call : Nat → Except PyException α) (e : PyException) (attempt : Nat) :
    (call 0 = .error e → shouldRetry e = false →
      executeWithBackoff call = (.error e, [])) ∧
    (attempt < maxRetries → call attempt = .error e → shouldRetry e = true →
      executeWithBackoffFrom call attempt =
        ((executeWithBackoffFrom call (attempt + 1)).1,
          attempt :: (executeWithBackoffFrom call (attempt + 1)).2)) ∧
    ((∀ a, a ≤ maxRetries → ∃ ea, call a = .error ea ∧ shouldRetry ea = true) →
      call maxRetries = .error e →
      executeWithBackoff call = (.error e, [0, 1, 2, 3, 4])) := by
  refine ⟨?_, ?_, ?_⟩
  · intro hcall hperm
    exact executeWithBackoffFrom_stop call 0 e hcall (Or.inl hperm)
  · intro hlt hcall hretry
    exact executeWithBackoffFrom_step call attempt e hlt hcall hretry
  · intro hall hcall5
    obtain ⟨e0, hc0, hr0⟩ := hall 0 (by decide)
    obtain ⟨e1, hc1, hr1⟩ := hall 1 (by decide)
    obtain ⟨e2, hc2, hr2⟩ := hall 2 (by decide)
    obtain ⟨e3, hc3, hr3⟩ := hall 3 (by decide)
    obtain ⟨e4, hc4, hr4⟩ := hall 4 (by decide)
    have h5 : executeWithBackoffFrom call 5 = (.error e, []) :=
      executeWithBackoffFrom_stop call 5 e hcall5 (Or.inr (le_refl _))
    have h4 : executeWithBackoffFrom call 4 = (.error e, [4]) := by
      rw [executeWithBackoffFrom_step call 4 e4 (by decide) hc4 hr4, h5]
    have h3 : executeWithBackoffFrom call 3 = (.error e, [3, 4]) := by
      rw [executeWithBackoffFrom_step call 3 e3 (by decide) hc3 hr3, h4]
    have h2 : executeWithBackoffFrom call 2 = (.error e, [2, 3, 4]) := by
      rw [executeWithBackoffFrom_step call 2 e2 (by decide) hc2 hr2, h3]
    have h1 : executeWithBackoffFrom call 1 = (.error e, [1, 2, 3, 4]) := by
      rw [executeWithBackoffFrom_step call 1 e1 (by decide) hc1 hr1, h2]
    rw [executeWithBackoff,
      executeWithBackoffFrom_step call 0 e0 (by decide) hc0 hr0, h1]

/-- Concrete instantiation of `per_call_retry_policy`: a permanent
403/forbidden error raises at once; a retryable 429 at attempt 2 sleeps
and moves to attempt 3; a persistent 500 exhausts the cap and is
re-raised after sleeps at indices 0-4. -/
theorem per_call_retry_policy_witness :
    executeWithBackoff (fun _ => (.error .other : Except PyException Nat)) =
      (.error .other, []) ∧
    executeWithBackoffFrom
        (fun _ => (.error (.httpError (some 429) none) : Except PyException Nat)) 2 =
      ((executeWithBackoffFrom
          (fun _ => (.error (.httpError (some 429) none) : Except PyException Nat)) 3).1,
        2 :: (executeWithBackoffFrom
          (fun _ => (.error (.httpError (some 429) none) : Except PyException Nat)) 3).2) ∧
    executeWithBackoff
        (fun _ => (.error (.httpError (some 500) none) : Except PyException Nat)) =
      (.error (.httpError (some 500) none), [0, 1, 2, 3, 4]) :=
  ⟨(per_call_retry_policy (fun _ => .error .other) .other 0).1 rfl rfl,
    (per_call_retry_policy (fun _ => .error (.httpError (some 429) none))
      (.httpError (some 429) none) 2).2.1 (by decide) rfl (by decide),
    (per_call_retry_policy (fun _ => .error (.httpError (some 500) none))
      (.httpError (some 500) none) 0).2.2
      (fun a _ => ⟨.httpError (some 500) none, rfl, by decide⟩) rfl⟩

/-- `_RETRY_BASE_DELAY_SECONDS` (processor.py line 20), in exact
rational arithmetic. -/
def retryBaseDelay : ℚ := 1

/-- `_RETRY_MAX_DELAY_SECONDS` (processor.py line 21). -/
def retryMaxDelay : ℚ := 60

/-- The deterministic part of the backoff delay, shared by
`_sleep_with_backoff` (processor.py lines 83-86) and the inline formula
of `_execute_with_backoff` (lines 96-99):
`min(_RETRY_MAX_DELAY_SECONDS, _RETRY_BASE_DELAY_SECONDS * 2 ** attempt)`. -/
def backoffBase (attempt : Nat) : ℚ :=
  min retryMaxDelay (retryBaseDelay * 2 ^ attempt)

/-- The total slept delay for a given attempt index and jitter draw:
`base_delay + jitter`. -/
def backoffDelay (attempt : Nat) (jitter : ℚ) : ℚ :=
  backoffBase attempt + jitter

/-- The jitter values `random.uniform(0, base_delay * 0.1)` can return
for a given attempt index. -/
def jitterValid (attempt : Nat) (jitter : ℚ) : Prop :=
  0 ≤ jitter ∧ jitter ≤ backoffBase attempt * (1 / 10)

theorem backoffBase_six : backoffBase 6 = 60 := by
  rw [backoffBase, retryBaseDelay, retryMaxDelay]
  norm_num

theorem backoffBase_seven : backoffBase 7 = 60 := by
  rw [backoffBase, retryBaseDelay, retryMaxDelay]
  norm_num

/-- C8 counterexample: once the 60s cap is reached, the realized delay
(base plus jitter) is not non-decreasing in the attempt index: a maximal
jitter draw at attempt 6 gives 66s, while a zero draw at attempt 7 gives
60s — both draws are within the allowed 10% band. -/
theorem backoff_delay_not_monotone :
    jitterValid 6 6 ∧ jitterValid 7 0 ∧
    backoffDelay 7 0 < backoffDelay 6 6 := by
  refine ⟨⟨by norm_num, ?_⟩, ⟨le_refl 0, ?_⟩, ?_⟩
  · rw [backoffBase_six]
    norm_num
  · rw [backoffBase_seven]
    norm_num
  · rw [backoffDelay, backoffDelay, backoffBase_six, backoffBase_seven]
    norm_num

/-- C8 amended: the delay equals `min(60, 1 * 2 ** attempt)` plus a
jitter of at most 10% of that base; the base is non-decreasing in the
attempt index and the total delay never exceeds `maxDelay * 1.1 = 66s`;
the realized delay including jitter is non-decreasing between
consecutive attempts only below the cap (attempt index < 6) — once the
base is capped at 60s it can decrease, as the counterexample shows. -/
theorem backoff_delay_bounds (a : Nat) (j j2 : ℚ)
    (hj : jitterValid a j) (hj2 : jitterValid (a + 1) j2) :
    backoffBase a ≤ backoffBase (a + 1) ∧
    backoffDelay a j ≤ retryMaxDelay * (11 / 10) ∧
    (a < 6 → backoffDelay a j ≤ backoffDelay (a + 1) j2) := by
  obtain ⟨hj0, hjb⟩ := hj
  obtain ⟨hj20, hj2b⟩ := hj2
  refine ⟨?_, ?_, ?_⟩
  · apply min_le_min (le_refl _)
    have : (2 : ℚ) ^ a ≤ 2 ^ (a + 1) := by
      apply pow_le_pow_right₀ (by norm_num) (Nat.le_succ a)
    rw [retryBaseDelay]
    linarith
  · have hb : backoffBase a ≤ 60 := min_le_left _ _
    rw [backoffDelay, retryMaxDelay]
    linarith
  · intro ha
    have hbase : backoffBase a * (11 / 10) ≤ backoffBase (a + 1) := by
      interval_cases a
      all_goals rw [backoffBase, backoffBase, retryBaseDelay, retryMaxDelay]
      all_goals norm_num
    rw [backoffDelay, backoffDelay]
    linarith

/-- Concrete instantiation of `backoff_delay_bounds` at attempt 3 with
zero jitter draws. -/
theorem backoff_delay_bounds_witness :
    jitterValid 3 0 ∧ jitterValid 4 0 ∧
    (backoffBase 3 ≤ backoffBase 4 ∧
      backoffDelay 3 0 ≤ retryMaxDelay * (11 / 10) ∧
      (3 < 6 → backoffDelay 3 0 ≤ backoffDelay 4 0)) := by
  have h3 : jitterValid 3 0 := by
    refine ⟨le_refl 0, ?_⟩
    rw [backoffBase, retryBaseDelay, retryMaxDelay]
    norm_num
  have h4 : jitterValid 4 0 := by
    refine ⟨le_refl 0, ?_⟩
    rw [backoffBase, retryBaseDelay, retryMaxDelay]
    norm_num
  exact ⟨h3, h4, backoff_delay_bounds 3 0 0 h3 h4⟩

/-- Python truthiness of the optional query string: `None` and the
empty string are both falsy. Every query guard in the processor
(`_build_cache_key` line 46, `get_messages` line 133,
`get_query_message_ids` line 311) tests exactly this. -/
def queryTruthy (q : Option String) : Bool :=
  match q with
  | none => false
  | some s => !(s == "")

/-- `Processor._build_cache_key` (processor.py lines 45-48): a falsy
query yields no fingerprint; otherwise the first 10 hex characters of
the query's SHA-1 digest (the digest function is a parameter of the
model). -/
def buildCacheKey (sha1hex : String → String) (query : Option String) :
    Option String :=
  if queryTruthy query then some ((sha1hex (query.getD "")).take 10)
  else none

/-- `Processor._cache_path` (processor.py lines 50-55): the cache file
name is the stem, suffixed with an underscore and the fingerprint when
one is present, under the `cache` directory. -/
def cachePath (cacheKey : Option String) (stem : String) : String :=
  match cacheKey with
  | some key => "cache/" ++ (stem ++ "_" ++ key ++ ".pickle")
  | none => "cache/" ++ (stem ++ ".pickle")

/-- The `q` argument the listing request of `get_messages` carries
(processor.py lines 129-134): present only for a truthy query. -/
def listQueryArg (query : Option String) : Option String :=
  if queryTruthy query then some (query.getD "") else none

/-- `Processor.get_query_message_ids` (processor.py lines 310-346), with
the paginated id listing abstracted to `resolve`: a falsy query returns
`None`; otherwise the ids listed for the query. -/
def getQueryMessageIds (query : Option String)
    (resolve : String → List String) : Option (List String) :=
  if queryTruthy query then some (resolve (query.getD "")) else none

/-- C10: a Processor constructed with an empty-string query behaves like
one constructed with no query: no cache fingerprint (so the default,
unsuffixed cache file name), no `q` filter on the listing request, and
absent query-id resolution, so filtering passes the collection through
unchanged. -/
theorem empty_query_like_none (sha1hex : String → String) (stem : String)
    (resolve : String → List String) (queue : List MsgMetadata) :
    buildCacheKey sha1hex (some "") = buildCacheKey sha1hex none ∧
    buildCacheKey sha1hex none = none ∧
    cachePath (buildCacheKey sha1hex (some "")) stem =
      "cache/" ++ (stem ++ ".pickle") ∧
    listQueryArg (some "") = listQueryArg none ∧
    listQueryArg none = none ∧
    getQueryMessageIds (some "") resolve = getQueryMessageIds none resolve ∧
    getQueryMessageIds none resolve = none ∧
    filterMessagesQueue (getQueryMessageIds (some "") resolve) queue = queue :=
  ⟨rfl, rfl, rfl, rfl, rfl, rfl, rfl, rfl⟩

end GmailAnalyzer
